import Mathlib

/-!
Shallow embedding of the ad serving decision engine of `src/ads_impl.cc`
(class `ads::AdsImpl`), together with theorems settling the specification's
claims about its rate limits, winner-over-time aggregation, ad selection,
locale fallback and reporting guards.  External collaborators (`Client`,
`UserModel`, the host `AdsClient`) are passed in as explicit state or
function arguments; their operations that the claims depend on are either
trivial state reads/writes or, where the repository snapshot lacks their
code, modelled from the spec (marked in the doc comment).
-/

namespace AdsImpl

/-- Unsigned 64-bit subtraction `a - b` as computed on C++ `uint64_t`
operands: the result wraps modulo `2 ^ 64`.  Both arguments are first
reduced modulo `2 ^ 64`, matching the machine representation. -/
def usub64 (a b : Nat) : Nat :=
  (a % 2 ^ 64 + 2 ^ 64 - b % 2 ^ 64) % 2 ^ 64

/-- Modelled from the spec: `static_values.h` is not part of the repository
snapshot; the spec's constants table fixes `kOneHourInSeconds = 3600`. -/
def kOneHourInSeconds : Nat := 3600

/-- `AdsImpl::AdsShownHistoryRespectsRollingTimeConstraint` (ads_impl.cc
lines 930-949): counts the dispatch timestamps `ad_shown` of the ads-shown
history with `now - ad_shown < seconds_window` (machine `uint64_t`
subtraction) and returns whether that count is at most
`allowable_ad_count`. -/
def AdsShownHistoryRespectsRollingTimeConstraint
    (ads_shown_history : List Nat) (now : Nat)
    (seconds_window allowable_ad_count : Nat) : Bool :=
  let recent_count :=
    List.countP (fun ad_shown => decide (usub64 now ad_shown < seconds_window))
      ads_shown_history
  if recent_count ≤ allowable_ad_count then true else false

/-- `AdsImpl::IsAllowedToShowAds` (ads_impl.cc lines 867-886).  The host
configuration values `GetAdsPerHour()` and `GetAdsPerDay()` are passed as
arguments, the `Client`'s ads-shown history and the current time as state.
The C++ computes `minimum_wait_time = hour_window / hour_allowed` with no
guard; division by zero on `uint64_t` is undefined behaviour, so the
embedding returns `none` when `adsPerHour = 0` and otherwise `some` of the
conjunction of the three checks exactly as the source computes them.  Note
that the source sets `day_window = kOneHourInSeconds`, the same window as
the hour check. -/
def IsAllowedToShowAds (adsPerHour adsPerDay : Nat)
    (ads_shown_history : List Nat) (now : Nat) : Option Bool :=
  let hour_window := kOneHourInSeconds
  let hour_allowed := adsPerHour
  if hour_allowed = 0 then
    none
  else
    let respects_hour_limit :=
      AdsShownHistoryRespectsRollingTimeConstraint ads_shown_history now
        hour_window hour_allowed
    let day_window := kOneHourInSeconds
    let day_allowed := adsPerDay
    let respects_day_limit :=
      AdsShownHistoryRespectsRollingTimeConstraint ads_shown_history now
        day_window day_allowed
    let minimum_wait_time := hour_window / hour_allowed
    let respects_minimum_wait_time :=
      AdsShownHistoryRespectsRollingTimeConstraint ads_shown_history now
        minimum_wait_time 0
    some (respects_hour_limit && respects_day_limit &&
      respects_minimum_wait_time)

/-- Claim C2's description of the three rolling checks, written from the
spec's words: the count of timestamps `t` with `now - t < 3600` must be at
most `ads_per_hour`; the day-limit count over its window must be at most
`ads_per_day`; and the count of timestamps `t` with
`now - t < 3600 / ads_per_hour` (integer division) must be at most `0`.
Window comparisons are strict `<`, count comparisons inclusive `≤`. -/
def SpecThreeRollingChecks (adsPerHour adsPerDay : Nat)
    (history : List Nat) (now : Nat) : Bool :=
  decide (List.countP (fun t => decide (usub64 now t < 3600)) history
      ≤ adsPerHour) &&
  decide (List.countP (fun t => decide (usub64 now t < kOneHourInSeconds))
      history ≤ adsPerDay) &&
  decide (List.countP (fun t => decide (usub64 now t < 3600 / adsPerHour))
      history ≤ 0)

theorem respects_eq_countP (history : List Nat) (now w a : Nat) :
    AdsShownHistoryRespectsRollingTimeConstraint history now w a =
      decide (List.countP (fun t => decide (usub64 now t < w)) history ≤ a) := by
  unfold AdsShownHistoryRespectsRollingTimeConstraint
  by_cases hc :
      List.countP (fun t => decide (usub64 now t < w)) history ≤ a <;>
    simp [hc]

/-- C1: the claim states that `IsAllowedToShowAds` returns `true` only if
the number of dispatch timestamps `t` with `now - t < 86400` is at most
`GetAdsPerDay()`.  The source instead sets `day_window = kOneHourInSeconds`
(3600), so the day check degenerates into a second hour check: with
`ads_per_hour = 2`, `ads_per_day = 1`, history `[2800, 2799]` and
`now = 10000`, both dispatches lie inside the rolling day (7200 and 7201
seconds ago) yet outside the hour window, and the function returns
`some true` although the 86400-second count exceeds the day allowance. -/
theorem isAllowedToShowAds_day_window_bug :
    IsAllowedToShowAds 2 1 [2800, 2799] 10000 = some true ∧
    ¬ (List.countP (fun t => decide (usub64 10000 t < 86400))
        [2800, 2799] ≤ 1) := by
  exact ⟨by decide, by decide⟩

/-- C2: for every ads-shown history, `IsAllowedToShowAds` succeeds exactly
with the conjunction of the three rolling checks described by the spec:
hour count over a strict 3600-second window at most `ads_per_hour`,
day-limit count over its (hour-sized) window at most `ads_per_day`, and
minimum-wait count over a strict `3600 / ads_per_hour`-second window at
most `0`.  The hypothesis `0 < adsPerHour` keeps the source's unguarded
division defined (see C10). -/
theorem isAllowedToShowAds_eq_spec (adsPerHour adsPerDay : Nat)
    (history : List Nat) (now : Nat) (h : 0 < adsPerHour) :
    IsAllowedToShowAds adsPerHour adsPerDay history now =
      some (SpecThreeRollingChecks adsPerHour adsPerDay history now) := by
  have hne : adsPerHour ≠ 0 := Nat.pos_iff_ne_zero.mp h
  simp [IsAllowedToShowAds, SpecThreeRollingChecks, respects_eq_countP,
    kOneHourInSeconds, hne]

theorem isAllowedToShowAds_eq_spec_witness :
    0 < 2 ∧
    IsAllowedToShowAds 2 5 [100] 4000 =
      some (SpecThreeRollingChecks 2 5 [100] 4000) :=
  ⟨by decide, isAllowedToShowAds_eq_spec 2 5 [100] 4000 (by decide)⟩

/-- C10: `IsAllowedToShowAds` computes `minimum_wait_time` as
`hour_window / hour_allowed` with no guard, so the guarded-division error
branch (`none`) is hit exactly for host configurations with
`ads_per_hour = 0`; the function is total precisely when
`GetAdsPerHour() > 0`. -/
theorem isAllowedToShowAds_none_iff_adsPerHour_zero
    (adsPerHour adsPerDay : Nat) (history : List Nat) (now : Nat) :
    IsAllowedToShowAds adsPerHour adsPerDay history now = none ↔
      adsPerHour = 0 := by
  unfold IsAllowedToShowAds
  by_cases h : adsPerHour = 0 <;> simp [h]

/-- The accumulation loop inside `AdsImpl::GetWinnerOverTimeCategory`
(ads_impl.cc lines 556-564): walk the page-score history, bail out (the C++
`return ""`, here `none`) as soon as a vector's length differs from
`count`, and otherwise add each vector pointwise into the accumulator.
Scores, `double` in the source, are modelled as rationals. -/
def sumScoresLoop (count : Nat) (acc : List ℚ) :
    List (List ℚ) → Option (List ℚ)
  | [] => some acc
  | page_scores :: rest =>
    if page_scores.length = count then
      sumScoresLoop count (List.zipWith (· + ·) acc page_scores) rest
    else
      none

/-- `AdsImpl::GetWinnerOverTimeCategory` (ads_impl.cc lines 544-571).  The
`Client`'s page-score history is passed as state and the external
`UserModel::winningCategory` classifier as a function argument.  An empty
history returns `""`; `count` is the length of the front entry; the loop
initialises a zero vector of length `count` and aborts with `""` on any
length mismatch; otherwise the classifier is applied to the sums. -/
def GetWinnerOverTimeCategory (winningCategory : List ℚ → String)
    (page_score_history : List (List ℚ)) : String :=
  match page_score_history with
  | [] => ""
  | front :: _ =>
    let count := front.length
    match sumScoresLoop count (List.replicate count 0) page_score_history with
    | none => ""
    | some winner_over_time_page_scores =>
      winningCategory winner_over_time_page_scores

/-- Claim C3's aggregate, written from the spec's words: the pointwise sum
of all history vectors, starting from the zero vector of length `count`. -/
def pointwiseSum (count : Nat) (history : List (List ℚ)) : List ℚ :=
  history.foldl (fun acc s => List.zipWith (· + ·) acc s)
    (List.replicate count 0)

/-- Claim C3's uniformity condition: every vector of the history has
length `count`. -/
def uniformLength (count : Nat) (history : List (List ℚ)) : Bool :=
  history.all (fun s => s.length == count)

theorem sumScoresLoop_eq_foldl (count : Nat) (history : List (List ℚ))
    (acc : List ℚ) (h : uniformLength count history = true) :
    sumScoresLoop count acc history =
      some (history.foldl (fun a s => List.zipWith (· + ·) a s) acc) := by
  induction history generalizing acc with
  | nil => rfl
  | cons s rest ih =>
    simp only [uniformLength, List.all_cons, Bool.and_eq_true, beq_iff_eq] at h
    obtain ⟨hs, hrest⟩ := h
    simp only [sumScoresLoop, hs, if_pos, List.foldl_cons]
    exact ih _ hrest

theorem sumScoresLoop_none (count : Nat) (history : List (List ℚ))
    (acc : List ℚ) (h : uniformLength count history = false) :
    sumScoresLoop count acc history = none := by
  induction history generalizing acc with
  | nil => simp [uniformLength] at h
  | cons s rest ih =>
    by_cases hs : s.length = count
    · have hrest : uniformLength count rest = false := by
        simp only [uniformLength, List.all_cons, beq_iff_eq, hs,
          decide_True, Bool.true_and] at h
        simpa [uniformLength] using h
      simp only [sumScoresLoop, hs, if_pos]
      exact ih _ hrest
    · simp [sumScoresLoop, hs]

/-- C3: `GetWinnerOverTimeCategory` returns `""` on an empty history,
returns `""` when some vector's length differs from the front entry's
length (no aggregation result is used), and otherwise returns the
classifier's winning category of the pointwise sum of all history
vectors. -/
theorem getWinnerOverTimeCategory_spec (winningCategory : List ℚ → String)
    (history : List (List ℚ)) :
    GetWinnerOverTimeCategory winningCategory history =
      match history with
      | [] => ""
      | front :: _ =>
        if uniformLength front.length history then
          winningCategory (pointwiseSum front.length history)
        else "" := by
  cases history with
  | nil => rfl
  | cons front rest =>
    by_cases h : uniformLength front.length (front :: rest) = true
    · rw [GetWinnerOverTimeCategory,
        sumScoresLoop_eq_foldl front.length (front :: rest) _ h]
      simp [h, pointwiseSum]
    · have h' : uniformLength front.length (front :: rest) = false :=
        Bool.eq_false_iff.mpr h
      rw [GetWinnerOverTimeCategory,
        sumScoresLoop_none front.length (front :: rest) _ h']
      simp [h']

/-- The ad fields consumed by the decision engine (`AdInfo`). -/
structure AdInfo where
  advertiser : String
  notification_text : String
  notification_url : String
  creative_set_id : String
  uuid : String
deriving DecidableEq

/-- The notification handed to the host (`NotificationInfo`). -/
structure NotificationInfo where
  advertiser : String
  category : String
  text : String
  url : String
  creative_set_id : String
  uuid : String
deriving DecidableEq

/-- The slice of engine plus `Client` state touched by `ShowAd` and
`OnGetAds`: the ads-shown history of dispatch timestamps, the seen-UUID
set (a `std::map` keyed by uuid in the `Client`, modelled as the list of
seen uuids), and `last_shown_notification_info_`. -/
structure ClientState where
  adsShownHistory : List Nat
  adsUUIDSeen : List String
  lastShownNotificationInfo : NotificationInfo
deriving DecidableEq

/-- `AdsImpl::IsAdValid` (ads_impl.cc lines 888-900): `false` when the
advertiser, notification text or notification URL is empty. -/
def IsAdValid (ad_info : AdInfo) : Bool :=
  if ad_info.advertiser.isEmpty || ad_info.notification_text.isEmpty ||
      ad_info.notification_url.isEmpty then
    false
  else
    true

/-- `AdsImpl::ShowAd` (ads_impl.cc lines 902-928): `false` and no effect
when the ad fails `IsAdValid`; otherwise build a `NotificationInfo` from
the ad's fields plus the category, store it as
`last_shown_notification_info_`, hand it to the host's `ShowNotification`
(the `Option NotificationInfo` component of the result) and append the
current time to the `Client`'s ads-shown history
(`AppendCurrentTimeToAdsShownHistory`). -/
def ShowAd (ad_info : AdInfo) (category : String) (now : Nat)
    (st : ClientState) : Bool × ClientState × Option NotificationInfo :=
  if !IsAdValid ad_info then
    (false, st, none)
  else
    let notification_info : NotificationInfo :=
      { advertiser := ad_info.advertiser
        category := category
        text := ad_info.notification_text
        url := ad_info.notification_url
        creative_set_id := ad_info.creative_set_id
        uuid := ad_info.uuid }
    (true,
      { st with
        lastShownNotificationInfo := notification_info
        adsShownHistory := st.adsShownHistory ++ [now] },
      some notification_info)

/-- C4: every notification `ShowAd` hands to the host's
`ShowNotification` has a non-empty advertiser, text and URL (the fields
`IsAdValid` requires of the source ad); and for every ad failing
`IsAdValid`, `ShowAd` returns `false` with the state unchanged — no
timestamp is appended to the ads-shown history, the last-shown
notification is untouched and the seen set does not advance. -/
theorem showAd_spec (ad_info : AdInfo) (category : String) (now : Nat)
    (st : ClientState) :
    (∀ n, (ShowAd ad_info category now st).2.2 = some n →
      n.advertiser.isEmpty = false ∧ n.text.isEmpty = false ∧
        n.url.isEmpty = false) ∧
    (IsAdValid ad_info = false →
      ShowAd ad_info category now st = (false, st, none)) := by
  by_cases h : IsAdValid ad_info
  · refine ⟨?_, ?_⟩
    · intro n hn
      simp only [ShowAd, h, Bool.not_true, Bool.false_eq_true, if_false,
        Option.some.injEq] at hn
      have hfields : ad_info.advertiser.isEmpty = false ∧
          ad_info.notification_text.isEmpty = false ∧
          ad_info.notification_url.isEmpty = false := by
        by_contra hcon
        have : IsAdValid ad_info = false := by
          unfold IsAdValid
          rcases Bool.eq_false_or_eq_true ad_info.advertiser.isEmpty with
            h1 | h1 <;>
          rcases Bool.eq_false_or_eq_true
              ad_info.notification_text.isEmpty with h2 | h2 <;>
          rcases Bool.eq_false_or_eq_true
              ad_info.notification_url.isEmpty with h3 | h3 <;>
            simp [h1, h2, h3] at hcon ⊢
        rw [this] at h
        exact Bool.false_ne_true h
      rw [← hn]
      exact hfields
    · intro hfalse
      rw [hfalse] at h
      exact absurd h (by simp)
  · have h' : IsAdValid ad_info = false := Bool.eq_false_iff.mpr h
    refine ⟨?_, fun _ => by simp [ShowAd, h']⟩
    intro n hn
    simp [ShowAd, h'] at hn

/-- An empty notification record, matching a default-constructed
`NotificationInfo`. -/
def emptyNotification : NotificationInfo := ⟨"", "", "", "", "", ""⟩

/-- A starting state with empty history and empty seen set. -/
def st0 : ClientState := ⟨[], [], emptyNotification⟩

/-- An ad with an empty advertiser, rejected by `IsAdValid`. -/
def invalidAd : AdInfo := ⟨"", "text", "url", "cs", "u0"⟩

theorem showAd_spec_witness :
    IsAdValid invalidAd = false ∧
    ShowAd invalidAd "category" 7 st0 = (false, st0, none) :=
  ⟨by decide, (showAd_spec invalidAd "category" 7 st0).2 (by decide)⟩

/-- The binary result carried by async callbacks. -/
inductive Result where
  | SUCCESS
  | FAILED
deriving DecidableEq

/-- The observable effect of one `OnGetAds` invocation: a recursive
re-request of ads (`GetAds`) with a truncated category, a return with no
dispatch, or a notification handed to the host. -/
inductive GetAdsOutcome where
  | retry (region : String) (category : String)
  | noAd
  | shown (info : NotificationInfo)
deriving DecidableEq

/-- `std::string::find_last_of(c)`: the index of the last occurrence of
`c`, or `none` (`std::string::npos`) when absent. -/
def findLastOf (s : String) (c : Char) : Option Nat :=
  ((List.range s.toList.length).filter
    (fun i => ((s.toList.get? i).map (· == c)).getD false)).getLast?

/-- `std::string::substr(0, pos)`: the first `pos` characters. -/
def substrTo (s : String) (pos : Nat) : String :=
  String.mk (s.toList.take pos)

/-- `AdsImpl::GetUnseenAds` (ads_impl.cc lines 850-865): copy the
candidate list and `std::remove_if` every ad whose uuid is in the
`Client`'s seen set. -/
def GetUnseenAds (adsUUIDSeen : List String) (ads : List AdInfo) :
    List AdInfo :=
  ads.filter (fun info => decide (info.uuid ∉ adsUUIDSeen))

/-- Modelled from the spec: `Client::ResetAdsUUIDSeen` is not part of the
repository snapshot; per the spec it resets the seen set for exactly the
given candidate list, i.e. clears `ads_seen ∩ candidates`. -/
def ResetAdsUUIDSeen (ads : List AdInfo) (adsUUIDSeen : List String) :
    List String :=
  adsUUIDSeen.filter (fun uuid => decide (uuid ∉ ads.map AdInfo.uuid))

/-- Fallback ad for the out-of-range branch of `List.getD`; never selected
when the random draw respects its `[0, size - 1]` contract. -/
def dummyAd : AdInfo := ⟨"", "", "", "", ""⟩

/-- The tail of `AdsImpl::OnGetAds` (ads_impl.cc lines 632-634): draw
`rand = Random(size - 1)` from the external `helper::Math::Random`
(modelled as the oracle `random`), take `ads_unseen.at(rand)` and call
`ShowAd` on it; the outcome records the notification handed to the host,
if any. -/
def DispatchFrom (random : Nat → Nat) (category : String)
    (ads_unseen : List AdInfo) (now : Nat) (st : ClientState) :
    GetAdsOutcome × ClientState :=
  let rand := random (ads_unseen.length - 1)
  let ad := ads_unseen.getD rand dummyAd
  match ShowAd ad category now st with
  | (_, st2, some info) => (GetAdsOutcome.shown info, st2)
  | (_, st2, none) => (GetAdsOutcome.noAd, st2)

/-- The round-robin selection phase of `AdsImpl::OnGetAds` (ads_impl.cc
lines 616-634): compute the unseen candidates; when empty, reset the seen
set for this candidate list and recompute; when still empty, return;
otherwise dispatch a randomly drawn unseen ad. -/
def SelectAndShow (random : Nat → Nat) (category : String)
    (ads : List AdInfo) (now : Nat) (st : ClientState) :
    GetAdsOutcome × ClientState :=
  let ads_unseen := GetUnseenAds st.adsUUIDSeen ads
  if ads_unseen.isEmpty then
    let st2 := { st with adsUUIDSeen := ResetAdsUUIDSeen ads st.adsUUIDSeen }
    let ads_unseen2 := GetUnseenAds st2.adsUUIDSeen ads
    if ads_unseen2.isEmpty then
      (GetAdsOutcome.noAd, st2)
    else
      DispatchFrom random category ads_unseen2 now st2
  else
    DispatchFrom random category ads_unseen now st

/-- `AdsImpl::OnGetAds` (ads_impl.cc lines 585-635).  On `FAILED` with a
`'-'` in the category, truncate at the last `'-'` and re-request ads for
the same region (the `retry` outcome); on `FAILED` without a `'-'` the
source returns only when the delivered ad list is empty, otherwise it
falls through to selection, as does every `SUCCESS` result. -/
def OnGetAds (random : Nat → Nat) (result : Result)
    (region category : String) (ads : List AdInfo) (now : Nat)
    (st : ClientState) : GetAdsOutcome × ClientState :=
  match result with
  | Result.FAILED =>
    match findLastOf category '-' with
    | some pos => (GetAdsOutcome.retry region (substrTo category pos), st)
    | none =>
      if ads.isEmpty then
        (GetAdsOutcome.noAd, st)
      else
        SelectAndShow random category ads now st
  | Result.SUCCESS => SelectAndShow random category ads now st

theorem getD_mem_of_lt {α : Type} (l : List α) (d : α) (r : Nat)
    (h : r < l.length) : l.getD r d ∈ l := by
  induction l generalizing r with
  | nil => simp at h
  | cons a t ih =>
    cases r with
    | zero => simp [List.getD]
    | succ r' =>
      have : t.getD r' d ∈ t :=
        ih r' (Nat.lt_of_succ_lt_succ (by simpa using h))
      simp [List.getD] at this ⊢
      exact Or.inr this

theorem getUnseenAds_reset (ads : List AdInfo) (seen : List String) :
    GetUnseenAds (ResetAdsUUIDSeen ads seen) ads = ads := by
  unfold GetUnseenAds ResetAdsUUIDSeen
  rw [List.filter_eq_self]
  intro a ha
  simp only [decide_eq_true_eq, List.mem_filter, decide_eq_true_eq]
  intro hcon
  exact hcon.2 (List.mem_map_of_mem AdInfo.uuid ha)

/-- C5: in every `OnGetAds` invocation that reaches ad selection (a
`SUCCESS` result, or the source's fall-through on `FAILED` with no `'-'`
and a non-empty list), the unseen set is the candidate list minus the
seen-UUID set; when it is non-empty the invocation dispatches via
`DispatchFrom`, i.e. `ShowAd` applied to the element of the unseen set at
the externally drawn random index (`helper::Math::Random(size - 1)`,
modelled by the oracle `random` with its `[0, size - 1]` contract, under
which the selected ad is a member of the unseen set); when it is empty the
seen set is reset for exactly this candidate list, after which the
recomputed unseen set equals the full candidate list, so the invocation
returns without dispatching exactly when the candidate list is empty and
otherwise dispatches a random element of it. -/
theorem onGetAds_selection_spec (random : Nat → Nat) (result : Result)
    (region category : String) (ads : List AdInfo) (now : Nat)
    (st : ClientState)
    (hsel : result = Result.SUCCESS ∨
      (result = Result.FAILED ∧ findLastOf category '-' = none ∧ ads ≠ []))
    (hrand : ∀ m, random m ≤ m) :
    GetUnseenAds st.adsUUIDSeen ads =
      ads.filter (fun a => decide (a.uuid ∉ st.adsUUIDSeen)) ∧
    (GetUnseenAds st.adsUUIDSeen ads ≠ [] →
      OnGetAds random result region category ads now st =
        DispatchFrom random category (GetUnseenAds st.adsUUIDSeen ads)
          now st ∧
      (GetUnseenAds st.adsUUIDSeen ads).getD
          (random ((GetUnseenAds st.adsUUIDSeen ads).length - 1)) dummyAd ∈
        GetUnseenAds st.adsUUIDSeen ads) ∧
    (GetUnseenAds st.adsUUIDSeen ads = [] →
      GetUnseenAds (ResetAdsUUIDSeen ads st.adsUUIDSeen) ads = ads ∧
      (ads = [] →
        OnGetAds random result region category ads now st =
          (GetAdsOutcome.noAd,
            { st with adsUUIDSeen := ResetAdsUUIDSeen ads st.adsUUIDSeen })) ∧
      (ads ≠ [] →
        OnGetAds random result region category ads now st =
          DispatchFrom random category ads now
            { st with adsUUIDSeen := ResetAdsUUIDSeen ads st.adsUUIDSeen } ∧
        ads.getD (random (ads.length - 1)) dummyAd ∈ ads)) := by
  have hOn : OnGetAds random result region category ads now st =
      SelectAndShow random category ads now st := by
    rcases hsel with hs | ⟨hf, hnone, hne⟩
    · rw [hs]; rfl
    · rw [hf]
      unfold OnGetAds
      rw [hnone]
      simp [List.isEmpty_iff, hne]
  refine ⟨rfl, ?_, ?_⟩
  · intro hne
    have hemp : (GetUnseenAds st.adsUUIDSeen ads).isEmpty = false := by
      simp [List.isEmpty_iff, hne]
    constructor
    · rw [hOn]
      unfold SelectAndShow
      simp only [hemp, Bool.false_eq_true, if_false]
    · have hlen : 0 < (GetUnseenAds st.adsUUIDSeen ads).length :=
        List.length_pos.mpr hne
      apply getD_mem_of_lt
      exact Nat.lt_of_le_of_lt (hrand _) (Nat.sub_lt hlen Nat.one_pos)
  · intro hemp
    have hreset := getUnseenAds_reset ads st.adsUUIDSeen
    have hemp' : (GetUnseenAds st.adsUUIDSeen ads).isEmpty = true := by
      simp [List.isEmpty_iff, hemp]
    refine ⟨hreset, ?_, ?_⟩
    · intro hads
      rw [hOn]
      unfold SelectAndShow
      simp only [hemp', if_true]
      rw [hreset]
      simp [List.isEmpty_iff, hads]
    · intro hads
      constructor
      · rw [hOn]
        unfold SelectAndShow
        simp only [hemp', if_true]
        rw [hreset]
        simp [List.isEmpty_iff, hads]
      · have hlen : 0 < ads.length := List.length_pos.mpr hads
        apply getD_mem_of_lt
        exact Nat.lt_of_le_of_lt (hrand _) (Nat.sub_lt hlen Nat.one_pos)

/-- A complete ad accepted by `IsAdValid`. -/
def ad1 : AdInfo := ⟨"adv", "text", "url", "cs", "u1"⟩

theorem onGetAds_selection_spec_witness :
    GetUnseenAds st0.adsUUIDSeen [ad1] ≠ [] ∧
    (OnGetAds (fun m => m) Result.SUCCESS "US" "cat" [ad1] 100 st0 =
        DispatchFrom (fun m => m) "cat" (GetUnseenAds st0.adsUUIDSeen [ad1])
          100 st0 ∧
      (GetUnseenAds st0.adsUUIDSeen [ad1]).getD
          ((fun m => m) ((GetUnseenAds st0.adsUUIDSeen [ad1]).length - 1))
          dummyAd ∈ GetUnseenAds st0.adsUUIDSeen [ad1]) :=
  ⟨by decide,
    (onGetAds_selection_spec (fun m => m) Result.SUCCESS "US" "cat" [ad1]
      100 st0 (Or.inl rfl) (fun m => Nat.le_refl m)).2.1 (by decide)⟩

/-- C6 counterexample: a `FAILED` callback whose category `"news"` holds
no `'-'` but whose delivered ad list is non-empty does not return — the
source only returns when `ads` is empty, so it falls through to selection
and dispatches an ad, contradicting the claim that such an invocation
returns without dispatching any ad. -/
theorem onGetAds_failed_no_dash_dispatches :
    (OnGetAds (fun _ => 0) Result.FAILED "US" "news" [ad1] 100 st0).1 =
      GetAdsOutcome.shown ⟨"adv", "news", "text", "url", "cs", "u1"⟩ := by
  decide

/-- C6 (amended): for every `OnGetAds` callback with result `FAILED`, if
the category contains a `'-'` the engine re-requests ads for the same
region with the category truncated at its last `'-'` and dispatches
nothing in this invocation; if the category contains no `'-'` and the
delivered ad list is empty, the invocation returns without dispatching
any ad (when that list is non-empty the source falls through to ad
selection instead). -/
theorem onGetAds_failed_spec (random : Nat → Nat) (region category : String)
    (ads : List AdInfo) (now : Nat) (st : ClientState) :
    (∀ pos, findLastOf category '-' = some pos →
      OnGetAds random Result.FAILED region category ads now st =
        (GetAdsOutcome.retry region (substrTo category pos), st)) ∧
    (findLastOf category '-' = none → ads = [] →
      OnGetAds random Result.FAILED region category ads now st =
        (GetAdsOutcome.noAd, st)) := by
  constructor
  · intro pos hpos
    unfold OnGetAds
    rw [hpos]
  · intro hnone hads
    unfold OnGetAds
    rw [hnone]
    simp [hads]

theorem onGetAds_failed_spec_witness :
    findLastOf "news-finance" '-' = some 4 ∧
    OnGetAds (fun _ => 0) Result.FAILED "US" "news-finance" [] 100 st0 =
      (GetAdsOutcome.retry "US" (substrTo "news-finance" 4), st0) :=
  ⟨by decide,
    (onGetAds_failed_spec (fun _ => 0) "US" "news-finance" [] 100 st0).1 4
      (by decide)⟩

/-- `AdsImpl::ChangeLocale` (ads_impl.cc lines 350-377).  The guard
`IsInitialized()` is abstracted as the boolean `isInit`; the host's
supported-locale list (`GetLocales()`) and the default language constant
(`kDefaultLanguage` from `static_values.h`, not in the snapshot) are
arguments; the `Client`'s stored locale is the state.  Returns the new
stored locale together with the locale `LoadUserModel` reloads the user
model for (`none` when the guard fails and nothing happens); the reload
reads the locale the `Client` just stored (`Client::GetLocale`).  The
dialect strip uses `helper::String::Split(locale, '_')` and takes the
front component. -/
def ChangeLocale (kDefaultLanguage : String) (locales : List String)
    (isInit : Bool) (locale : String) (clientLocale : String) :
    String × Option String :=
  if !isInit then
    (clientLocale, none)
  else
    if locales.contains locale then
      (locale, some locale)
    else
      let locale_components := locale.splitOn "_"
      let language_code := locale_components.headD ""
      let closest_match_for_locale :=
        if locales.contains language_code then language_code
        else kDefaultLanguage
      (closest_match_for_locale, some closest_match_for_locale)

/-- C7: on an initialized engine, `ChangeLocale` stores the locale itself
when it is in the supported list, else the first `'_'`-separated segment
when that is supported, else `kDefaultLanguage`; and in all cases the user
model is then reloaded for exactly the locale just stored. -/
theorem changeLocale_spec (kDefaultLanguage : String)
    (locales : List String) (locale clientLocale : String) :
    (ChangeLocale kDefaultLanguage locales true locale clientLocale).2 =
      some (ChangeLocale kDefaultLanguage locales true locale
        clientLocale).1 ∧
    ChangeLocale kDefaultLanguage locales true locale clientLocale =
      (if locales.contains locale then (locale, some locale)
       else if locales.contains ((locale.splitOn "_").headD "") then
         ((locale.splitOn "_").headD "",
           some ((locale.splitOn "_").headD ""))
       else (kDefaultLanguage, some kDefaultLanguage)) := by
  unfold ChangeLocale
  by_cases h1 : locale ∈ locales <;>
    by_cases h2 : (locale.splitOn "_").head?.getD "" ∈ locales <;>
      simp [h1, h2]

/-- The URL components the host parses out of a URL
(`bat/ads/url_components.h`); only the scheme matters here. -/
structure UrlComponents where
  scheme : String
  hostname : String
deriving DecidableEq

/-- The emission guard of `AdsImpl::GenerateAdReportingLoadEvent`
(ads_impl.cc lines 980-987): the host call
`GetUrlComponents(info.tab_url, &components)` is modelled by its result
pair (success flag, components as left in the out-parameter).  The source
returns early when the call SUCCEEDS, or when the scheme is neither
`"http"` nor `"https"`; only past that guard is the load event written
and emitted, so the returned boolean is whether a load event is
emitted. -/
def GenerateAdReportingLoadEvent
    (getUrlComponents : Bool × UrlComponents) : Bool :=
  let ok := getUrlComponents.1
  let components := getUrlComponents.2
  if ok || (components.scheme != "http" && components.scheme != "https") then
    false
  else
    true

/-- C8: the claim says the load event is emitted if and only if
`GetUrlComponents` succeeds and the parsed scheme is http/https — the
behaviour the spec states as intended while flagging the source's
logical inversion.  The source instead early-returns when parsing
SUCCEEDS: for a tab URL parsed successfully with scheme `"https"` no
event is emitted, while a failed parse whose out-parameter holds scheme
`"https"` does emit one. -/
theorem generateAdReportingLoadEvent_inverted :
    GenerateAdReportingLoadEvent (true, ⟨"https", "www.example.com"⟩) =
      false ∧
    GenerateAdReportingLoadEvent (false, ⟨"https", "www.example.com"⟩) =
      true := by
  decide

/-- The engine-state slice read by `AdsImpl::IsInitialized`: the
`is_initialized_` flag and the `user_model_` unique pointer, `none` when
null and `some b` when it points at a model whose `IsInitialized()`
returns `b`. -/
structure EngineState where
  isInitializedFlag : Bool
  user_model : Option Bool
deriving DecidableEq

/-- `AdsImpl::IsInitialized` (ads_impl.cc lines 213-221).  The C++
condition `!is_initialized_ || !ads_client_->IsAdsEnabled() ||
!user_model_->IsInitialized()` short-circuits left to right, so the
`user_model_` pointer is dereferenced only after the first two disjuncts
are false; a dereference of the null pointer is the `Except.error`
branch. -/
def IsInitialized (adsEnabled : Bool) (st : EngineState) :
    Except Unit Bool :=
  if !st.isInitializedFlag then
    Except.ok false
  else if !adsEnabled then
    Except.ok false
  else
    match st.user_model with
    | none => Except.error ()
    | some m => if !m then Except.ok false else Except.ok true

/-- C9 counterexample: the claim asserts `IsInitialized` unconditionally
dereferences `user_model_`, making the null-dereference branch reachable
whenever no model has been loaded.  In the freshly constructed state
(`is_initialized_ = false`, `user_model_` null) with ads enabled, the
C++ `||` short-circuits on `!is_initialized_` and the call returns
`false` safely — no error branch is reached although no model was ever
loaded. -/
theorem isInitialized_fresh_state_safe :
    IsInitialized true { isInitializedFlag := false, user_model := none } =
      Except.ok false := rfl

/-- C9 (amended): `IsInitialized` dereferences `user_model_` only after
`is_initialized_` and `IsAdsEnabled()` both pass (the `||`
short-circuits), so the null-dereference error branch is reachable
exactly in states with `is_initialized_ = true`, ads enabled and a null
`user_model_`; in particular the freshly constructed state and every
state with `is_initialized_ = false` are safe even though no model has
been loaded. -/
theorem isInitialized_error_iff (adsEnabled : Bool) (st : EngineState) :
    IsInitialized adsEnabled st = Except.error () ↔
      st.isInitializedFlag = true ∧ adsEnabled = true ∧
        st.user_model = none := by
  rcases st with ⟨(_ | _), (_ | (_ | _))⟩ <;> cases adsEnabled <;>
    simp [IsInitialized]

end AdsImpl
